import Mathlib

/-!
Shallow embedding of `src/check.py` (stream liveness checker).

The network is abstracted by an oracle `Nat → Outcome` giving, for each
attempt number, what `requests.head` would do on that attempt: deliver a
response with some status code, or raise a `requests.RequestException`
(transport error: connection refused, timeout, DNS failure, ...).
-/

namespace DTV

/-- Outcome of one `requests.head(url, timeout=timeout)` call: either a
response arrives within the timeout carrying a status code, or the call
raises a `requests.RequestException` (modelling connection errors,
timeouts, DNS failures, TLS failures). -/
inductive Outcome where
  | status (code : Nat)
  | transportError (msg : String)
deriving DecidableEq, Repr

/-- The value `check_url_with_requests` computes: `Except` models Python
exception propagation (an uncaught exception would be `.error`), the pair
carries the returned boolean and the number of probe attempts performed. -/
abbrev CheckResult := Except String (Bool × Nat)

/-- The body of `for attempt in range(retries)` in `check_url_with_requests`
(src/check.py lines 17-25), iterated over the remaining attempt numbers.
On a 200 response the function returns `True` at once; on any other status
the loop falls through to the next attempt; a `requests.RequestException`
is caught by the `except` clause and the loop continues (the
`if attempt < retries - 1` test only gates a log line).  When the list of
attempts is exhausted the function returns `False` (line 26). -/
def attemptLoop (oracle : Nat → Outcome) : List Nat → CheckResult
  | [] => Except.ok (false, 0)
  | a :: rest =>
    match oracle a with
    | Outcome.status c =>
        if c = 200 then Except.ok (true, 1)
        else Except.map (fun r => (r.1, r.2 + 1)) (attemptLoop oracle rest)
    | Outcome.transportError _ =>
        Except.map (fun r => (r.1, r.2 + 1)) (attemptLoop oracle rest)

/-- `check_url_with_requests(url, timeout, retries)` (src/check.py
lines 15-26): runs the attempt loop over `range(retries)`.  The url and
timeout are folded into the oracle. -/
def check_url_with_requests (oracle : Nat → Outcome) (retries : Nat) : CheckResult :=
  attemptLoop oracle (List.range retries)

/-- The boolean verdict of `check_url_with_requests` (`False` is never
reached through the `.error` branch; see `attemptLoop_total`). -/
def checkVerdict (oracle : Nat → Outcome) (retries : Nat) : Bool :=
  match check_url_with_requests oracle retries with
  | Except.ok (b, _) => b
  | Except.error _ => false

/-- The attempt loop never lets an exception escape: every run returns a
boolean result together with its attempt count. -/
theorem attemptLoop_total (oracle : Nat → Outcome) (l : List Nat) :
    ∃ b n, attemptLoop oracle l = Except.ok (b, n) := by
  induction l with
  | nil => exact ⟨false, 0, rfl⟩
  | cons a rest ih =>
    obtain ⟨b, n, hb⟩ := ih
    cases h : oracle a with
    | status c =>
      by_cases hc : c = 200
      · exact ⟨true, 1, by simp [attemptLoop, h, hc]⟩
      · exact ⟨b, n + 1, by simp [attemptLoop, h, hc, hb, Except.map]⟩
    | transportError m =>
      exact ⟨b, n + 1, by simp [attemptLoop, h, hb, Except.map]⟩

/-- If no attempt in the list yields status 200, the loop consumes every
attempt and returns `False`. -/
theorem attemptLoop_all_fail (oracle : Nat → Outcome) (l : List Nat)
    (h : ∀ a ∈ l, oracle a ≠ Outcome.status 200) :
    attemptLoop oracle l = Except.ok (false, l.length) := by
  induction l with
  | nil => rfl
  | cons a rest ih =>
    have ha := h a (List.mem_cons_self a rest)
    have hrest : ∀ x ∈ rest, oracle x ≠ Outcome.status 200 := by
      intro x hx
      exact h x (List.mem_cons_of_mem a hx)
    cases ho : oracle a with
    | status c =>
      have hc : c ≠ 200 := by
        intro hc
        exact ha (by rw [ho, hc])
      simp [attemptLoop, ho, hc, ih hrest, Except.map]
    | transportError m =>
      simp [attemptLoop, ho, ih hrest, Except.map]

/-- If the first attempt in the list yields status 200, the loop stops at
once with `True` after exactly one attempt. -/
theorem attemptLoop_first_success (oracle : Nat → Outcome) (a : Nat) (rest : List Nat)
    (h : oracle a = Outcome.status 200) :
    attemptLoop oracle (a :: rest) = Except.ok (true, 1) := by
  simp [attemptLoop, h]

/-- The loop returns `True` exactly when some listed attempt yields
status 200. -/
theorem attemptLoop_true_iff (oracle : Nat → Outcome) (l : List Nat) :
    (∃ n, attemptLoop oracle l = Except.ok (true, n)) ↔
      ∃ a ∈ l, oracle a = Outcome.status 200 := by
  induction l with
  | nil =>
    constructor
    · rintro ⟨n, hn⟩
      simp [attemptLoop] at hn
    · rintro ⟨a, ha, _⟩
      exact absurd ha (List.not_mem_nil a)
  | cons a rest ih =>
    cases ho : oracle a with
    | status c =>
      by_cases hc : c = 200
      · subst hc
        constructor
        · intro _
          exact ⟨a, List.mem_cons_self a rest, ho⟩
        · intro _
          exact ⟨1, by simp [attemptLoop, ho]⟩
      · obtain ⟨b, n, hb⟩ := attemptLoop_total oracle rest
        constructor
        · rintro ⟨m, hm⟩
          simp [attemptLoop, ho, hc, hb, Except.map] at hm
          obtain ⟨x, hx, h200⟩ := ih.mp ⟨n, by rw [hb, hm.1]⟩
          exact ⟨x, List.mem_cons_of_mem a hx, h200⟩
        · rintro ⟨x, hx, h200⟩
          rcases List.mem_cons.mp hx with hxa | hxr
          · subst hxa
            rw [ho] at h200
            exact absurd (Outcome.status.inj h200) hc
          · obtain ⟨m, hm⟩ := ih.mpr ⟨x, hxr, h200⟩
            exact ⟨m + 1, by simp [attemptLoop, ho, hc, hm, Except.map]⟩
    | transportError msg =>
      obtain ⟨b, n, hb⟩ := attemptLoop_total oracle rest
      constructor
      · rintro ⟨m, hm⟩
        simp [attemptLoop, ho, hb, Except.map] at hm
        obtain ⟨x, hx, h200⟩ := ih.mp ⟨n, by rw [hb, hm.1]⟩
        exact ⟨x, List.mem_cons_of_mem a hx, h200⟩
      · rintro ⟨x, hx, h200⟩
        rcases List.mem_cons.mp hx with hxa | hxr
        · subst hxa
          rw [ho] at h200
          exact absurd h200 (by simp)
        · obtain ⟨m, hm⟩ := ih.mpr ⟨x, hxr, h200⟩
          exact ⟨m + 1, by simp [attemptLoop, ho, hm, Except.map]⟩

/-- Python list indexing `lines[k]` for `k` possibly negative: a negative
index counts from the end of the list (`lines[-1]` is the last element).
Out-of-range reads (which would raise `IndexError`) fall back to `""`;
no theorem below depends on that fallback. -/
def pyGet (lines : List String) (k : Int) : String :=
  if k < 0 then lines.getD (lines.length - (-k).toNat) ""
  else lines.getD k.toNat ""

/-- `process_stream(index, lines, ...)` (src/check.py lines 28-38) with the
probe verdict abstracted: when `check_url_with_requests` reports live it
returns the two lines `[lines[index - 1], lines[index]]`, otherwise `[]`.
Note `lines[index - 1]` uses Python indexing: at `index = 0` it reads
`lines[-1]`, the LAST line of the file. -/
def process_stream (lines : List String) (i : Nat) (live : Bool) : List String :=
  if live then [pyGet lines ((i : Int) - 1), pyGet lines (i : Int)] else []

/-- Python `s.startswith(p)`: `p`'s characters are an initial segment of
`s`'s characters (computed over the character lists so that proofs can
evaluate it). -/
def strStartsWith (s p : String) : Bool := List.isPrefixOf p.data s.data

/-- Modelled from the spec: Python `str.strip()` whitespace set
(space, tab, newline, carriage return, vertical tab, form feed), used
only to state what "trimmed text" means; `check_streams` itself never
strips before testing the prefix. -/
def isPythonSpace (c : Char) : Bool :=
  c = ' ' ∨ c = '\t' ∨ c = '\n' ∨ c = '\r' ∨ c = '\x0b' ∨ c = '\x0c'

/-- Modelled from the spec: the "trimmed text" of a line — Python
`line.strip()` — leading and trailing whitespace removed.  This is the
spec's notion for recognizing URL lines; the source has no counterpart
(it tests the raw line), so this definition exists only to compare the
spec's extraction rule with the code's. -/
def pythonStrip (s : String) : List Char :=
  ((s.data.dropWhile isPythonSpace).reverse.dropWhile isPythonSpace).reverse

/-- The indices the futures dict of `check_streams` is built over
(src/check.py lines 47-51): `i` for `i, line in enumerate(lines)` such
that `line.startswith("http")`.  One future is submitted per such index
(the dict is keyed by the distinct Future objects, so no index collapses). -/
def urlIndices (lines : List String) : List Nat :=
  (List.range lines.length).filter (fun i => strStartsWith (lines.getD i "") "http")

/-- The `live_lines` accumulation of `check_streams` (src/check.py
lines 53-54): `as_completed` yields the futures in completion order
(`order`, some permutation of `urlIndices lines`), and each
`future.result()` — the two-line block or `[]` from `process_stream` —
is appended by `live_lines.extend(...)` in that order. -/
def collate (lines : List String) (verdict : Nat → Bool) (order : List Nat) : List String :=
  (order.map (fun i => process_stream lines i (verdict i))).flatten

/-- The sequence of entry indices whose blocks survive into the output,
in emission order: exactly the live entries, in completion order. -/
def survivors (verdict : Nat → Bool) (order : List Nat) : List Nat :=
  order.filter verdict

/-- The output of `check_streams` is the concatenation of the surviving
entries' two-line blocks, taken in completion order. -/
theorem collate_eq_survivors_blocks (lines : List String) (verdict : Nat → Bool)
    (order : List Nat) :
    collate lines verdict order =
      ((survivors verdict order).map (fun i => process_stream lines i true)).flatten := by
  induction order with
  | nil => rfl
  | cons a rest ih =>
    by_cases ha : verdict a
    · simp [collate, survivors, ha, process_stream] at ih ⊢
      exact ih
    · simp [collate, survivors, ha, process_stream] at ih ⊢
      exact ih

/-- For an entry index `i ≥ 1`, Python `lines[i - 1]` is the genuinely
preceding line. -/
theorem pyGet_pred (lines : List String) (i : Nat) (h : 1 ≤ i) :
    pyGet lines ((i : Int) - 1) = lines.getD (i - 1) "" := by
  have h0 : ¬ ((i : Int) - 1 < 0) := by omega
  have ht : ((i : Int) - 1).toNat = i - 1 := by omega
  simp [pyGet, h0, ht]

/-- Python `lines[i]` for a natural index is the ordinary lookup. -/
theorem pyGet_self (lines : List String) (i : Nat) :
    pyGet lines (i : Int) = lines.getD i "" := by
  simp [pyGet]

/-- Each live entry contributes a block of two lines and each dead entry
contributes nothing, so the output has exactly twice as many lines as
there are surviving entries. -/
theorem collate_length (lines : List String) (verdict : Nat → Bool) (order : List Nat) :
    (collate lines verdict order).length = 2 * (survivors verdict order).length := by
  induction order with
  | nil => rfl
  | cons a rest ih =>
    by_cases ha : verdict a
    · simp [collate, survivors, ha, process_stream, List.filter_cons] at ih ⊢
      omega
    · simp [collate, survivors, ha, process_stream, List.filter_cons] at ih ⊢
      exact ih

/-- The two-line block of any live entry in the completion order occurs
contiguously inside the collated output. -/
theorem collate_block_infix (lines : List String) (verdict : Nat → Bool)
    (order : List Nat) (i : Nat) (hmem : i ∈ order) (hlive : verdict i = true) :
    ∃ s t, collate lines verdict order =
      s ++ [pyGet lines ((i : Int) - 1), pyGet lines (i : Int)] ++ t := by
  induction order with
  | nil => exact absurd hmem (List.not_mem_nil i)
  | cons a rest ih =>
    rcases List.mem_cons.mp hmem with hia | hir
    · subst hia
      refine ⟨[], (rest.map (fun j => process_stream lines j (verdict j))).flatten, ?_⟩
      simp [collate, process_stream, hlive]
    · obtain ⟨s, t, hst⟩ := ih hir
      refine ⟨process_stream lines a (verdict a) ++ s, t, ?_⟩
      simp only [collate] at hst ⊢
      simp [hst]

/-- C10: calling `check_url_with_requests` with `retries = 0` iterates
`range(0)`, so it performs zero probe attempts and returns `False`
unconditionally — every URL is reported dead. -/
theorem claim_C10 (oracle : Nat → Outcome) :
    check_url_with_requests oracle 0 = Except.ok (false, 0) := rfl

/-- C8: when at least one attempt is made (`1 ≤ retries`, so the first
probe attempt exists) and the first attempt yields status 200 within the
timeout, `check_url_with_requests` performs exactly one attempt and
returns `True`. -/
theorem claim_C8 (oracle : Nat → Outcome) (retries : Nat)
    (h1 : 1 ≤ retries) (h2 : oracle 0 = Outcome.status 200) :
    check_url_with_requests oracle retries = Except.ok (true, 1) := by
  obtain ⟨k, rfl⟩ := Nat.exists_eq_add_of_le h1
  rw [check_url_with_requests, Nat.add_comm, List.range_succ_eq_map]
  exact attemptLoop_first_success oracle 0 _ h2

/-- Witness for C8: a first-attempt 200 with one allowed attempt. -/
theorem claim_C8_witness :
    check_url_with_requests (fun _ => Outcome.status 200) 1 = Except.ok (true, 1) :=
  claim_C8 (fun _ => Outcome.status 200) 1 (by decide) rfl

/-- C2 counterexample: with an oracle that transport-fails every attempt
and `retries = 3`, the loop `for attempt in range(retries)` performs
exactly 3 attempts — not `3 + 1` as the claim states — before returning
`False`. -/
theorem claim_C2_counterexample :
    check_url_with_requests (fun _ => Outcome.transportError "connection refused") 3 =
      Except.ok (false, 3) ∧ (3 : Nat) ≠ 3 + 1 := by
  constructor
  · rfl
  · decide

/-- C2 amended: if every probe attempt fails at the transport level,
`check_url_with_requests` performs exactly `retries` total attempts
(the parameter counts total attempts, not additional retries) and
returns `False`. -/
theorem claim_C2_amended (oracle : Nat → Outcome) (retries : Nat)
    (h : ∀ i, ∃ m, oracle i = Outcome.transportError m) :
    check_url_with_requests oracle retries = Except.ok (false, retries) := by
  have hfail : ∀ a ∈ List.range retries, oracle a ≠ Outcome.status 200 := by
    intro a _ hcontra
    obtain ⟨m, hm⟩ := h a
    rw [hm] at hcontra
    exact absurd hcontra (by simp)
  rw [check_url_with_requests, attemptLoop_all_fail oracle _ hfail, List.length_range]

/-- Witness for C2 amended: an always-transport-failing oracle with two
allowed attempts yields `False` after exactly two attempts. -/
theorem claim_C2_amended_witness :
    check_url_with_requests (fun _ => Outcome.transportError "refused") 2 =
      Except.ok (false, 2) :=
  claim_C2_amended (fun _ => Outcome.transportError "refused") 2
    (fun _ => ⟨"refused", rfl⟩)

/-- C4: `check_url_with_requests` never raises — every run resolves to a
boolean result (an uncaught exception would be `Except.error`) — and when
no attempt yields status 200 (transport failures and non-success statuses
alike) it degrades to `False` once all attempts are exhausted. -/
theorem claim_C4 (oracle : Nat → Outcome) (retries : Nat) :
    (∃ b n, check_url_with_requests oracle retries = Except.ok (b, n)) ∧
    ((∀ i, i < retries → oracle i ≠ Outcome.status 200) →
      check_url_with_requests oracle retries = Except.ok (false, retries)) := by
  constructor
  · exact attemptLoop_total oracle (List.range retries)
  · intro h
    have hfail : ∀ a ∈ List.range retries, oracle a ≠ Outcome.status 200 := by
      intro a ha
      exact h a (List.mem_range.mp ha)
    rw [check_url_with_requests, attemptLoop_all_fail oracle _ hfail, List.length_range]

/-- Witness for C4: an oracle answering 404 on every attempt — the call
returns a boolean and it is `False` after both attempts. -/
theorem claim_C4_witness :
    (∃ b n, check_url_with_requests (fun _ => Outcome.status 404) 2 = Except.ok (b, n)) ∧
    check_url_with_requests (fun _ => Outcome.status 404) 2 = Except.ok (false, 2) :=
  ⟨(claim_C4 (fun _ => Outcome.status 404) 2).1,
   (claim_C4 (fun _ => Outcome.status 404) 2).2 (by decide)⟩

/-- C5: the probe verdict is live exactly when some attempt receives a
response within the timeout whose status code equals 200; an attempt
answered by any other status (redirects, 4xx, 5xx) or by a transport
error never makes the verdict live. -/
theorem claim_C5 (oracle : Nat → Outcome) (retries : Nat) :
    checkVerdict oracle retries = true ↔
      ∃ i, i < retries ∧ oracle i = Outcome.status 200 := by
  obtain ⟨b, n, hb⟩ := attemptLoop_total oracle (List.range retries)
  have hiff := attemptLoop_true_iff oracle (List.range retries)
  constructor
  · intro hv
    rw [checkVerdict, check_url_with_requests, hb] at hv
    subst hv
    obtain ⟨a, ha, h200⟩ := hiff.mp ⟨n, hb⟩
    exact ⟨a, List.mem_range.mp ha, h200⟩
  · rintro ⟨i, hi, h200⟩
    obtain ⟨m, hm⟩ := hiff.mpr ⟨i, List.mem_range.mpr hi, h200⟩
    rw [hb] at hm
    have hbm : b = true := congrArg Prod.fst (Except.ok.inj hm)
    rw [checkVerdict, check_url_with_requests, hb, hbm]

/-- C1 counterexample: a four-line playlist with two live entries.  The
completion order `[3, 1]` is a legal schedule (a permutation of the URL
indices `[1, 3]`), yet the emitted surviving-entry sequence `[3, 1]` is
not an order-preserving subsequence of the input entry sequence, and the
written lines come out as entry 3's block before entry 1's: the collation
appends blocks in `as_completed` order instead of keying by entry index. -/
theorem claim_C1_counterexample :
    [3, 1].Perm (urlIndices ["#A", "http://a", "#B", "http://b"]) ∧
    ¬ (survivors (fun _ => true) [3, 1]).Sublist
        (urlIndices ["#A", "http://a", "#B", "http://b"]) ∧
    collate ["#A", "http://a", "#B", "http://b"] (fun _ => true) [3, 1] =
      ["#B", "http://b", "#A", "http://a"] := by
  refine ⟨by decide, by decide, by decide⟩

/-- C1 amended: for every completion order (permutation of the entry
indices), the surviving entries are, as a multiset, exactly the live
subset of the input entries — but their emitted order is the completion
order, and only when probes complete in input order is the surviving
sequence an order-preserving subsequence of the input. -/
theorem claim_C1_amended (lines : List String) (verdict : Nat → Bool)
    (order : List Nat) (h : order.Perm (urlIndices lines)) :
    (survivors verdict order).Perm ((urlIndices lines).filter verdict) ∧
    (survivors verdict (urlIndices lines)).Sublist (urlIndices lines) := by
  exact ⟨h.filter verdict, List.filter_sublist _⟩

/-- Witness for C1 amended, at the four-line playlist with completion
order `[3, 1]`. -/
theorem claim_C1_amended_witness :
    (survivors (fun _ => true) [3, 1]).Perm
        ((urlIndices ["#A", "http://a", "#B", "http://b"]).filter (fun _ => true)) ∧
    (survivors (fun _ => true) (urlIndices ["#A", "http://a", "#B", "http://b"])).Sublist
        (urlIndices ["#A", "http://a", "#B", "http://b"]) :=
  claim_C1_amended ["#A", "http://a", "#B", "http://b"] (fun _ => true) [3, 1] (by decide)

/-- C3: for every completion schedule (a permutation of the futures
built by `check_streams`, one per URL line), exactly one result is
collected per entry: the result count equals the entry count, every
entry's index is processed exactly once, and nothing outside the entry
set is processed. -/
theorem claim_C3 (lines : List String)
    (order : List Nat) (h : order.Perm (urlIndices lines)) :
    order.length = (urlIndices lines).length ∧
    (∀ i ∈ urlIndices lines, order.count i = 1) ∧
    (∀ i, i ∈ order ↔ i ∈ urlIndices lines) := by
  have hnodup : (urlIndices lines).Nodup :=
    List.Nodup.filter _ (List.nodup_range _)
  refine ⟨h.length_eq, ?_, fun i => h.mem_iff⟩
  intro i hi
  rw [h.count_eq i]
  exact List.count_eq_one_of_mem hnodup hi

/-- Witness for C3, at the four-line playlist with completion order
`[3, 1]`. -/
theorem claim_C3_witness :
    [3, 1].length = (urlIndices ["#A", "http://a", "#B", "http://b"]).length ∧
    (∀ i ∈ urlIndices ["#A", "http://a", "#B", "http://b"], [3, 1].count i = 1) ∧
    (∀ i, i ∈ [3, 1] ↔ i ∈ urlIndices ["#A", "http://a", "#B", "http://b"]) :=
  claim_C3 ["#A", "http://a", "#B", "http://b"] [3, 1] (by decide)

/-- C6 counterexample: the line `" http://a"` — whose trimmed text begins
with `"http"` — is not selected as a URL line, because the code tests
`line.startswith("http")` on the raw, untrimmed line. -/
theorem claim_C6_counterexample :
    List.isPrefixOf "http".data (pythonStrip " http://a") = true ∧
    urlIndices [" http://a"] = [] := by
  refine ⟨by decide, by decide⟩

/-- C6 amended: the entry extractor selects as URL lines exactly those
lines whose RAW (untrimmed) text begins with the literal prefix
`"http"`, producing one entry per such line and none for any other. -/
theorem claim_C6_amended (lines : List String) (i : Nat) :
    i ∈ urlIndices lines ↔
      i < lines.length ∧ strStartsWith (lines.getD i "") "http" = true := by
  simp [urlIndices, List.mem_filter, List.mem_range]

/-- C7: the code does NOT explicitly handle a URL line at sequence
index 0.  On the playlist `["http://first", "#meta"]`, whose only URL
line is its first line, a live probe makes `process_stream` return
`[lines[-1], lines[0]]`: the URL is silently paired with the LAST line
of the file by Python negative-index wraparound, with no diagnostic and
no error. -/
theorem claim_C7 :
    process_stream ["http://first", "#meta"] 0 true = ["#meta", "http://first"] := by
  decide

/-- C9: every surviving entry contributes exactly two lines — the output
length is twice the number of surviving entries — and for every live
entry at index `i ≥ 1` (the entries that have a preceding metadata line)
the block consisting of its metadata line `lines[i-1]` immediately
followed by its URL line `lines[i]` occurs contiguously in the written
output. -/
theorem claim_C9 (lines : List String) (verdict : Nat → Bool) (order : List Nat) :
    (collate lines verdict order).length = 2 * (survivors verdict order).length ∧
    ∀ i ∈ order, verdict i = true → 1 ≤ i →
      ∃ s t, collate lines verdict order =
        s ++ [lines.getD (i - 1) "", lines.getD i ""] ++ t := by
  refine ⟨collate_length lines verdict order, ?_⟩
  intro i hmem hlive hi
  obtain ⟨s, t, hst⟩ := collate_block_infix lines verdict order i hmem hlive
  rw [pyGet_pred lines i hi, pyGet_self lines i] at hst
  exact ⟨s, t, hst⟩

/-- Witness for C9, at the four-line playlist with completion order
`[3, 1]` and entry 3 live. -/
theorem claim_C9_witness :
    (collate ["#A", "http://a", "#B", "http://b"] (fun _ => true) [3, 1]).length =
      2 * (survivors (fun _ => true) [3, 1]).length ∧
    ∃ s t, collate ["#A", "http://a", "#B", "http://b"] (fun _ => true) [3, 1] =
      s ++ [(["#A", "http://a", "#B", "http://b"] : List String).getD (3 - 1) "",
            (["#A", "http://a", "#B", "http://b"] : List String).getD 3 ""] ++ t :=
  ⟨(claim_C9 ["#A", "http://a", "#B", "http://b"] (fun _ => true) [3, 1]).1,
   (claim_C9 ["#A", "http://a", "#B", "http://b"] (fun _ => true) [3, 1]).2
     3 (by decide) (by decide) (by decide)⟩

end DTV
